import Mathlib

/-!
Verification of the core of the Cetus CLMM liquidity-rebalance bot.

The development shallowly embeds the bot's decision-and-execution core:
tick math (utils.ts), the strategy engine (strategy.ts), the state store
(persistence.ts), the filesystem lock (riskChecks.ts) and the transaction
execution wrapper / rebalance sequence (suiWallet.ts, index.ts).

Numbers: the TypeScript source computes with IEEE doubles; the embedding
uses real numbers for prices and exact integers for ticks, balances
(bigint) and counters, which is the mathematical content of the code.
I/O (filesystem, chain RPC, clock) is made explicit: the clock becomes a
`now` parameter, the chain becomes an environment of fetched states and
per-attempt broadcast outcomes, the lock file becomes its parsed content.
-/

/-! ## Tick math (utils.ts) -/

/-- Source: `TICK_BASE = 1.0001`: price = TICK_BASE ^ tick. -/
def TICK_BASE : ℝ := 1.0001

/-- Source: `MIN_TICK = -443636`. -/
def MIN_TICK : ℤ := -443636

/-- Source: `MAX_TICK = 443636`. -/
def MAX_TICK : ℤ := 443636

/-- The rounding mode parameter of `priceToTick`: "floor" | "ceil" | "nearest". -/
inductive Round where
  | floor
  | ceil
  | nearest

/-- Source: `Math.pow(TICK_BASE, tick)` for an integer tick (tickToPrice). -/
noncomputable def tickToPrice (tick : ℤ) : ℝ := TICK_BASE ^ tick

/-- The raw (unaligned) tick of a price: `Math.log(price) / LOG_TICK_BASE`. -/
noncomputable def rawTick (price : ℝ) : ℝ := Real.log price / Real.log TICK_BASE

/-- Source: `Math.ceil(MIN_TICK / tickSpacing) * tickSpacing` (the lower spacing-aligned bound
inside clampTick). -/
def minAlignedTick (tickSpacing : ℤ) : ℤ :=
  ⌈(MIN_TICK : ℚ) / (tickSpacing : ℚ)⌉ * tickSpacing

/-- Source: `Math.floor(MAX_TICK / tickSpacing) * tickSpacing` (the upper spacing-aligned bound
inside clampTick). -/
def maxAlignedTick (tickSpacing : ℤ) : ℤ :=
  ⌊(MAX_TICK : ℚ) / (tickSpacing : ℚ)⌋ * tickSpacing

/-- Source: `clampTick(tick, tickSpacing)`: clamp to `[MIN_TICK, MAX_TICK]` aligned to
`tickSpacing` — `Math.max(minAligned, Math.min(maxAligned, tick))`. -/
def clampTick (tick : ℤ) (tickSpacing : ℤ) : ℤ :=
  max (minAlignedTick tickSpacing) (min (maxAlignedTick tickSpacing) tick)

/-- Source: `priceToTick(price, tickSpacing, round)`: throws for `price <= 0`, else aligns the
raw tick to a multiple of `tickSpacing` using the rounding mode and clamps.
`Math.round` rounds half toward positive infinity, as Mathlib's `round` does. -/
noncomputable def priceToTick (price : ℝ) (tickSpacing : ℤ) (rounding : Round) :
    Except String ℤ :=
  if price ≤ 0 then Except.error ("price must be positive")
  else
    let raw := rawTick price
    let tick : ℤ :=
      match rounding with
      | Round.floor => ⌊raw / (tickSpacing : ℝ)⌋ * tickSpacing
      | Round.ceil => ⌈raw / (tickSpacing : ℝ)⌉ * tickSpacing
      | Round.nearest => round (raw / (tickSpacing : ℝ)) * tickSpacing
    Except.ok (clampTick tick tickSpacing)

/-- Source: `computeNewTickRange(currentPrice, priceBandPct, tickSpacing)`:
lower/upper prices at ±`priceBandPct`%, aligned floor/ceil, error when the
aligned bounds are not strictly ordered. -/
noncomputable def computeNewTickRange (currentPrice priceBandPct : ℝ)
    (tickSpacing : ℤ) : Except String (ℤ × ℤ) :=
  let factor := priceBandPct / 100
  let lowerPrice := currentPrice * (1 - factor)
  let upperPrice := currentPrice * (1 + factor)
  match priceToTick lowerPrice tickSpacing Round.floor with
  | Except.error e => Except.error e
  | Except.ok tickLower =>
    match priceToTick upperPrice tickSpacing Round.ceil with
    | Except.error e => Except.error e
    | Except.ok tickUpper =>
      if tickLower ≥ tickUpper then
        Except.error ("Invalid tick range: lower=" ++ toString tickLower ++
          " >= upper=" ++ toString tickUpper)
      else Except.ok (tickLower, tickUpper)

/-- Source: `centerTick(lower, upper) = Math.round((lower + upper) / 2)`. -/
def centerTick (tickLower tickUpper : ℤ) : ℤ :=
  round (((tickLower : ℚ) + (tickUpper : ℚ)) / 2)

/-- Source: `driftPct(currentPrice, lower, upper)`: signed % deviation of the price from the
price at the center tick. -/
noncomputable def driftPct (currentPrice : ℝ) (tickLower tickUpper : ℤ) : ℝ :=
  let centerPrice := tickToPrice (centerTick tickLower tickUpper)
  (currentPrice - centerPrice) / centerPrice * 100

/-- Source: `isTickInRange(tick, lower, upper)`: inclusive at both ends. -/
def isTickInRange (tick tickLower tickUpper : ℤ) : Bool :=
  tickLower ≤ tick && tick ≤ tickUpper

/-- Source: `backoffMs(attempt)` with the source's default arguments baked in:
`Math.min(1000 * 2 ** attempt, 30000)`. -/
def backoffMs (attempt : ℕ) : ℕ := min (1000 * 2 ^ attempt) 30000

/-! ## Strategy engine (strategy.ts) -/

/-- PositionState: the on-chain position the strategy reads. -/
structure PositionState where
  tickLower : ℤ
  tickUpper : ℤ
  liquidity : ℤ
  unclaimedFeeA : ℤ
  unclaimedFeeB : ℤ

/-- PoolState: the pool snapshot the strategy reads. -/
structure PoolState where
  currentTick : ℤ
  currentPrice : ℝ
  tickSpacing : ℤ
  sqrtPrice : ℤ

/-- RebalanceTrigger: "price_out_of_range" | "drift_exceeded" | "none". -/
inductive RebalanceTrigger where
  | price_out_of_range
  | drift_exceeded
  | none
deriving DecidableEq

/-- StrategyDecision. `details` is human-readable rationale only; the source
interpolates floating-point values with toFixed, which the embedding leaves
out of the strings (it is never read programmatically). -/
structure StrategyDecision where
  shouldRebalance : Bool
  trigger : RebalanceTrigger
  currentDriftPct : ℝ
  newTickLower : Option ℤ
  newTickUpper : Option ℤ
  details : String

/-- The fully-resolved BotConfig fields the core reads (config.ts). -/
structure BotConfig where
  rebalanceMode : String
  priceBandPct : ℝ
  driftTriggerPct : ℝ
  slippageBps : ℤ
  gasBudget : ℤ
  maxRetries : ℕ
  dryRun : Bool
  confirm : Bool

/-- The `details` string of the out-of-range branch of evaluateStrategy. -/
def detailsOutOfRange (currentTick tickLower tickUpper : ℤ) : String :=
  "Current tick " ++ toString currentTick ++ " is outside [" ++
    toString tickLower ++ ", " ++ toString tickUpper ++ "]"

/-- The `details` string of the drift branch (float formatting elided). -/
def detailsDriftExceeded : String := "Drift exceeds threshold"

/-- The `details` string of the no-rebalance branch (float formatting elided). -/
def detailsInRange : String := "In range."

/-- Source: `evaluateStrategy(pool, position, config)`: pure decision function.
A thrown error of computeNewTickRange propagates to the caller. -/
noncomputable def evaluateStrategy (pool : PoolState) (position : PositionState)
    (config : BotConfig) : Except String StrategyDecision :=
  let drift := driftPct pool.currentPrice position.tickLower position.tickUpper
  let inRange := isTickInRange pool.currentTick position.tickLower position.tickUpper
  if !inRange then
    match computeNewTickRange pool.currentPrice config.priceBandPct pool.tickSpacing with
    | Except.error e => Except.error e
    | Except.ok r =>
      Except.ok
        { shouldRebalance := true
          trigger := RebalanceTrigger.price_out_of_range
          currentDriftPct := drift
          newTickLower := some r.1
          newTickUpper := some r.2
          details := detailsOutOfRange pool.currentTick position.tickLower
            position.tickUpper }
  else if |drift| > config.driftTriggerPct then
    match computeNewTickRange pool.currentPrice config.priceBandPct pool.tickSpacing with
    | Except.error e => Except.error e
    | Except.ok r =>
      Except.ok
        { shouldRebalance := true
          trigger := RebalanceTrigger.drift_exceeded
          currentDriftPct := drift
          newTickLower := some r.1
          newTickUpper := some r.2
          details := detailsDriftExceeded }
  else
    Except.ok
      { shouldRebalance := false
        trigger := RebalanceTrigger.none
        currentDriftPct := drift
        newTickLower := Option.none
        newTickUpper := Option.none
        details := detailsInRange }

/-- Source: `computeTokenAmounts(liquidity, currentPrice, tickLower, tickUpper)`:
planning-grade concentrated-liquidity reserve split. -/
noncomputable def computeTokenAmounts (liquidity : ℤ) (currentPrice : ℝ)
    (tickLower tickUpper : ℤ) : ℝ × ℝ :=
  let sqrtCurrent := Real.sqrt currentPrice
  let sqrtLower := Real.sqrt (tickToPrice tickLower)
  let sqrtUpper := Real.sqrt (tickToPrice tickUpper)
  let L : ℝ := (liquidity : ℝ)
  if currentPrice ≤ tickToPrice tickLower then
    (L * (1 / sqrtLower - 1 / sqrtUpper), 0)
  else if currentPrice ≥ tickToPrice tickUpper then
    (0, L * (sqrtUpper - sqrtLower))
  else
    (L * (1 / sqrtCurrent - 1 / sqrtUpper), L * (sqrtCurrent - sqrtLower))

/-- The signed token-A amount `x` solved for inside computeSwapNeeded:
`x = (bA - targetRatioAtoB * bB) / (1 + targetRatioAtoB * price)`. -/
noncomputable def swapX (balanceA balanceB : ℤ) (targetRatioAtoB currentPrice : ℝ) : ℝ :=
  ((balanceA : ℝ) - targetRatioAtoB * (balanceB : ℝ)) /
    (1 + targetRatioAtoB * currentPrice)

/-- Source: `totalValueInA = bA + bB / currentPrice` inside computeSwapNeeded. -/
noncomputable def totalValueInA (balanceA balanceB : ℤ) (currentPrice : ℝ) : ℝ :=
  (balanceA : ℝ) + (balanceB : ℝ) / currentPrice

/-- Source: `computeSwapNeeded(balanceA, balanceB, targetRatioAtoB, currentPrice, slippageBps)`:
`some (swapAtoB, swapAmount)` or `none`. `slippageBps` is accepted and unused,
as in the source. -/
noncomputable def computeSwapNeeded (balanceA balanceB : ℤ)
    (targetRatioAtoB currentPrice : ℝ) (slippageBps : ℤ) : Option (Bool × ℤ) :=
  if targetRatioAtoB ≤ 0 ∨ (balanceA : ℝ) + (balanceB : ℝ) = 0 then Option.none
  else
    let x := swapX balanceA balanceB targetRatioAtoB currentPrice
    if |x| < 0.05 * totalValueInA balanceA balanceB currentPrice then Option.none
    else if 0 < x then
      let swapAmount := ⌊x⌋
      if swapAmount = 0 then Option.none else some (true, swapAmount)
    else
      let bAmount := |x| * currentPrice
      let swapAmount := ⌊bAmount⌋
      if swapAmount = 0 then Option.none else some (false, swapAmount)

/-! ## State store (persistence.ts) -/

/-- BotState: the JSON-persisted record. `lastLiquidity` is stored as decimal
text of the bigint, as in the source. -/
structure BotState where
  lastRebalanceTime : Option ℤ
  lastPositionId : Option String
  lastTickLower : Option ℤ
  lastTickUpper : Option ℤ
  lastLiquidity : Option String
  totalRebalances : ℕ
  lastTxDigest : Option String

/-- Source: `DEFAULT_STATE = { totalRebalances: 0 }`. -/
def DEFAULT_STATE : BotState :=
  { lastRebalanceTime := Option.none
    lastPositionId := Option.none
    lastTickLower := Option.none
    lastTickUpper := Option.none
    lastLiquidity := Option.none
    totalRebalances := 0
    lastTxDigest := Option.none }

/-- Source: `updateStateAfterRebalance(state, positionId, tickLower, tickUpper, liquidity,
txDigest)`. `Date.now()` is passed explicitly as `now`. -/
def updateStateAfterRebalance (state : BotState) (positionId : String)
    (tickLower tickUpper : ℤ) (liquidity : ℤ) (txDigest : String) (now : ℤ) :
    BotState :=
  { state with
    lastRebalanceTime := some now
    lastPositionId := some positionId
    lastTickLower := some tickLower
    lastTickUpper := some tickUpper
    lastLiquidity := some (toString liquidity)
    totalRebalances := state.totalRebalances + 1
    lastTxDigest := some txDigest }

/-! ## Concurrency guard (riskChecks.ts) -/

/-- Source: `acquireLock(path)` over the parsed lock-file content: `content` is the pid
stored in an existing lock file (or `Option.none` when the file is absent),
`alive` is the `process.kill(pid, 0)` liveness probe, `selfPid` is
`process.pid`. The result pairs the outcome (an error is the thrown
concurrent-instance condition) with the lock file content afterwards. -/
def acquireLock (content : Option ℤ) (alive : ℤ → Bool) (selfPid : ℤ) :
    Except String Unit × Option ℤ :=
  match content with
  | Option.none => (Except.ok (), some selfPid)
  | some pid =>
    if pid ≠ selfPid then
      if alive pid then
        (Except.error ("Another rebalance process is running (PID " ++
          toString pid ++ ")"), some pid)
      else
        (Except.ok (), some selfPid)
    else (Except.ok (), some selfPid)

/-! ## Transaction execution wrapper (suiWallet.ts) -/

/-- One `signAndExecuteTransaction` attempt as the wrapper observes it:
a thrown error, a result whose effects status is success (with digest), or a
result whose effects status is not success (with the status error text). -/
inductive AttemptOutcome where
  | throws (err : String)
  | success (digest : String)
  | failure (digest : String) (err : String)

/-- What the try-block of an attempt yields: a non-success execution result is
turned into a thrown "Transaction failed: ..." error, caught by the same catch. -/
def attemptToExcept : AttemptOutcome → Except String String
  | AttemptOutcome.throws e => Except.error e
  | AttemptOutcome.success d => Except.ok d
  | AttemptOutcome.failure _ e => Except.error ("Transaction failed: " ++ e)

/-- Whether an attempt is a failure (caught by the catch block). -/
def isFailedAttempt (o : AttemptOutcome) : Bool :=
  match attemptToExcept o with
  | Except.error _ => true
  | Except.ok _ => false

/-- The error a failed attempt stores into `lastErr`. -/
def errOf (o : AttemptOutcome) : Option String :=
  match attemptToExcept o with
  | Except.error e => some e
  | Except.ok _ => Option.none

/-- The retry loop of executeTransaction: `remaining` attempts left, `attempt`
the zero-based index of the next one, `lastErr` as caught so far, `sleeps` the
backoff delays already slept. After every failed attempt the loop sleeps
`backoffMs(attempt)`; when attempts run out it throws `lastErr`. -/
def execGo (outcomes : ℕ → AttemptOutcome) :
    ℕ → ℕ → Option String → List ℕ → Except (Option String) String × List ℕ
  | 0, _, lastErr, sleeps => (Except.error lastErr, sleeps)
  | remaining + 1, attempt, _, sleeps =>
    match attemptToExcept (outcomes attempt) with
    | Except.ok d => (Except.ok d, sleeps)
    | Except.error e =>
      execGo outcomes remaining (attempt + 1) (some e) (sleeps ++ [backoffMs attempt])

/-- Source: `executeTransaction(ctx, tx, config)`: dry-run and confirmation gates, then
up to `maxRetries + 1` broadcast attempts. `outcomes` is the chain's response
to each attempt; the second component is the list of backoff sleeps performed. -/
def executeTransaction (config : BotConfig) (outcomes : ℕ → AttemptOutcome) :
    Except (Option String) String × List ℕ :=
  if config.dryRun then (Except.ok ("dry-run"), [])
  else if !config.confirm then (Except.ok ("aborted-no-confirm"), [])
  else execGo outcomes (config.maxRetries + 1) 0 Option.none []

/-! ## Rebalance sequence (index.ts, runRebalance) -/

/-- The chain environment one runRebalance call reads: the re-fetched pool
state, the wallet balances after remove-liquidity and after the optional swap,
and the broadcast outcomes of each executeTransaction call (indexed by the
order of the calls, then by attempt). -/
structure ChainEnv where
  pool : PoolState
  midBalanceA : ℤ
  midBalanceB : ℤ
  finalBalanceA : ℤ
  finalBalanceB : ℤ
  txOutcomes : ℕ → ℕ → AttemptOutcome

/-- The externally visible steps of the rebalance sequence. -/
inductive RebalanceStep where
  | collectFees
  | removeLiquidity
  | swap
  | addLiquidity
deriving DecidableEq

/-- Source: `runRebalance(...)`: collect fees → remove liquidity → optional swap →
add liquidity, every on-chain call going through executeTransaction. Returns
the digest of the add-liquidity result together with the executed steps; the
first failing call aborts the sequence with its error. -/
noncomputable def runRebalance (config : BotConfig) (env : ChainEnv)
    (positionId : String) (tickLower tickUpper newTickLower newTickUpper : ℤ)
    (liquidity : ℤ) : Except (Option String) (String × List RebalanceStep) :=
  match (executeTransaction config (env.txOutcomes 0)).1 with
  | Except.error e => Except.error e
  | Except.ok _collectDigest =>
    match (executeTransaction config (env.txOutcomes 1)).1 with
    | Except.error e => Except.error e
    | Except.ok _removeDigest =>
      let amounts := computeTokenAmounts liquidity env.pool.currentPrice
        newTickLower newTickUpper
      let targetRatioAtoB := if amounts.2 > 0 then amounts.1 / amounts.2 else 1
      match computeSwapNeeded env.midBalanceA env.midBalanceB
          targetRatioAtoB env.pool.currentPrice config.slippageBps with
      | some _ =>
        match (executeTransaction config (env.txOutcomes 2)).1 with
        | Except.error e => Except.error e
        | Except.ok _swapDigest =>
          match (executeTransaction config (env.txOutcomes 3)).1 with
          | Except.error e => Except.error e
          | Except.ok addDigest =>
            Except.ok (addDigest,
              [RebalanceStep.collectFees, RebalanceStep.removeLiquidity,
                RebalanceStep.swap, RebalanceStep.addLiquidity])
      | Option.none =>
        match (executeTransaction config (env.txOutcomes 2)).1 with
        | Except.error e => Except.error e
        | Except.ok addDigest =>
          Except.ok (addDigest,
            [RebalanceStep.collectFees, RebalanceStep.removeLiquidity,
              RebalanceStep.addLiquidity])

/-! ## Helper lemmas: tick alignment and bounds -/

lemma one_lt_tick_base : (1 : ℝ) < TICK_BASE := by norm_num [TICK_BASE]

lemma tick_base_pos : (0 : ℝ) < TICK_BASE := lt_trans one_pos one_lt_tick_base

lemma tickToPrice_pos (t : ℤ) : 0 < tickToPrice t := zpow_pos tick_base_pos t

lemma tickToPrice_strictMono {t u : ℤ} (h : t < u) : tickToPrice t < tickToPrice u :=
  zpow_lt_zpow_right₀ one_lt_tick_base h

lemma min_tick_le_minAlignedTick {s : ℤ} (hs : 0 < s) :
    MIN_TICK ≤ minAlignedTick s := by
  have hs' : (0 : ℚ) < (s : ℚ) := by exact_mod_cast hs
  have h2 : (MIN_TICK : ℚ) ≤ (⌈(MIN_TICK : ℚ) / (s : ℚ)⌉ : ℚ) * (s : ℚ) := by
    calc (MIN_TICK : ℚ) = (MIN_TICK : ℚ) / (s : ℚ) * (s : ℚ) := by
          field_simp
      _ ≤ (⌈(MIN_TICK : ℚ) / (s : ℚ)⌉ : ℚ) * (s : ℚ) :=
          mul_le_mul_of_nonneg_right (Int.le_ceil _) hs'.le
  unfold minAlignedTick
  exact_mod_cast h2

lemma maxAlignedTick_le_max_tick {s : ℤ} (hs : 0 < s) :
    maxAlignedTick s ≤ MAX_TICK := by
  have hs' : (0 : ℚ) < (s : ℚ) := by exact_mod_cast hs
  have h2 : (⌊(MAX_TICK : ℚ) / (s : ℚ)⌋ : ℚ) * (s : ℚ) ≤ (MAX_TICK : ℚ) := by
    calc (⌊(MAX_TICK : ℚ) / (s : ℚ)⌋ : ℚ) * (s : ℚ)
        ≤ (MAX_TICK : ℚ) / (s : ℚ) * (s : ℚ) :=
          mul_le_mul_of_nonneg_right (Int.floor_le _) hs'.le
      _ = (MAX_TICK : ℚ) := by field_simp
  unfold maxAlignedTick
  exact_mod_cast h2

lemma minAlignedTick_nonpos {s : ℤ} (hs : 0 < s) : minAlignedTick s ≤ 0 := by
  have hs' : (0 : ℚ) < (s : ℚ) := by exact_mod_cast hs
  have hc : ⌈(MIN_TICK : ℚ) / (s : ℚ)⌉ ≤ 0 := by
    rw [Int.ceil_le]
    push_cast
    apply div_nonpos_of_nonpos_of_nonneg _ hs'.le
    norm_num [MIN_TICK]
  have := mul_le_mul_of_nonneg_right hc hs.le
  simpa [minAlignedTick] using this

lemma maxAlignedTick_nonneg {s : ℤ} (hs : 0 < s) : 0 ≤ maxAlignedTick s := by
  have hs' : (0 : ℚ) < (s : ℚ) := by exact_mod_cast hs
  have hc : 0 ≤ ⌊(MAX_TICK : ℚ) / (s : ℚ)⌋ := by
    rw [Int.le_floor]
    apply div_nonneg _ hs'.le
    norm_num [MAX_TICK]
  have := mul_le_mul_of_nonneg_right hc hs.le
  simpa [maxAlignedTick] using this

lemma minAligned_le_maxAligned {s : ℤ} (hs : 0 < s) :
    minAlignedTick s ≤ maxAlignedTick s :=
  le_trans (minAlignedTick_nonpos hs) (maxAlignedTick_nonneg hs)

lemma dvd_minAlignedTick (s : ℤ) : s ∣ minAlignedTick s := dvd_mul_left s _

lemma dvd_maxAlignedTick (s : ℤ) : s ∣ maxAlignedTick s := dvd_mul_left s _

lemma clampTick_dvd {t s : ℤ} (h : s ∣ t) : s ∣ clampTick t s := by
  unfold clampTick
  rcases le_total (maxAlignedTick s) t with hc | hc
  · rw [min_eq_left hc]
    rcases le_total (minAlignedTick s) (maxAlignedTick s) with hd | hd
    · rw [max_eq_right hd]; exact dvd_maxAlignedTick s
    · rw [max_eq_left hd]; exact dvd_minAlignedTick s
  · rw [min_eq_right hc]
    rcases le_total (minAlignedTick s) t with hd | hd
    · rw [max_eq_right hd]; exact h
    · rw [max_eq_left hd]; exact dvd_minAlignedTick s

lemma minAligned_le_clampTick (t s : ℤ) : minAlignedTick s ≤ clampTick t s :=
  le_max_left _ _

lemma clampTick_le_maxAligned {t : ℤ} {s : ℤ} (hs : 0 < s) :
    clampTick t s ≤ maxAlignedTick s :=
  max_le (minAligned_le_maxAligned hs) (min_le_left _ _)

lemma min_tick_le_clampTick {t s : ℤ} (hs : 0 < s) : MIN_TICK ≤ clampTick t s :=
  le_trans (min_tick_le_minAlignedTick hs) (minAligned_le_clampTick t s)

lemma clampTick_le_max_tick {t s : ℤ} (hs : 0 < s) : clampTick t s ≤ MAX_TICK :=
  le_trans (clampTick_le_maxAligned hs) (maxAlignedTick_le_max_tick hs)

/-! ## Claim theorems: tick invariants -/

/-- C5: for every price > 0, positive tickSpacing and rounding mode (floor, ceil
or nearest), the tick returned by priceToTick is a multiple of tickSpacing and
lies within [MIN_TICK, MAX_TICK]. -/
theorem priceToTick_aligned_and_bounded (price : ℝ) (s : ℤ) (rounding : Round)
    (hp : 0 < price) (hs : 0 < s) :
    ∃ t : ℤ, priceToTick price s rounding = Except.ok t ∧ s ∣ t ∧
      MIN_TICK ≤ t ∧ t ≤ MAX_TICK := by
  unfold priceToTick
  rw [if_neg (not_le.mpr hp)]
  cases rounding with
  | floor =>
    exact ⟨clampTick (⌊rawTick price / (s : ℝ)⌋ * s) s, rfl,
      clampTick_dvd (dvd_mul_left s _), min_tick_le_clampTick hs,
      clampTick_le_max_tick hs⟩
  | ceil =>
    exact ⟨clampTick (⌈rawTick price / (s : ℝ)⌉ * s) s, rfl,
      clampTick_dvd (dvd_mul_left s _), min_tick_le_clampTick hs,
      clampTick_le_max_tick hs⟩
  | nearest =>
    exact ⟨clampTick (round (rawTick price / (s : ℝ)) * s) s, rfl,
      clampTick_dvd (dvd_mul_left s _), min_tick_le_clampTick hs,
      clampTick_le_max_tick hs⟩

/-- Witness for C5 at price = 1, tickSpacing = 10, nearest rounding. -/
theorem priceToTick_aligned_and_bounded_witness :
    (0 : ℝ) < 1 ∧ (0 : ℤ) < 10 ∧
      (∃ t : ℤ, priceToTick 1 10 Round.nearest = Except.ok t ∧ (10 : ℤ) ∣ t ∧
        MIN_TICK ≤ t ∧ t ≤ MAX_TICK) :=
  ⟨by norm_num, by norm_num,
    priceToTick_aligned_and_bounded 1 10 Round.nearest (by norm_num) (by norm_num)⟩

lemma minAlignedTick_ten : minAlignedTick 10 = -443630 := by
  have h : ⌈(MIN_TICK : ℚ) / (10 : ℚ)⌉ = -44363 := by
    rw [Int.ceil_eq_iff]
    unfold MIN_TICK
    push_cast
    norm_num
  unfold minAlignedTick
  rw [show ((10 : ℤ) : ℚ) = (10 : ℚ) by norm_num, h]
  norm_num

lemma maxAlignedTick_ten : maxAlignedTick 10 = 443630 := by
  have h : ⌊(MAX_TICK : ℚ) / (10 : ℚ)⌋ = 44363 := by
    rw [Int.floor_eq_iff]
    unfold MAX_TICK
    push_cast
    norm_num
  unfold maxAlignedTick
  rw [show ((10 : ℤ) : ℚ) = (10 : ℚ) by norm_num, h]
  norm_num

lemma clampTick_five_ten : clampTick 5 10 = 5 := by
  unfold clampTick
  rw [minAlignedTick_ten, maxAlignedTick_ten]
  norm_num

/-- C6 counterexample: clampTick 5 10 returns 5, which is not a multiple of the
tick spacing 10 — the claim that every clampTick result is spacing-aligned
fails for an input tick that is itself misaligned. -/
theorem clampTick_misaligned_cex : ¬ ((10 : ℤ) ∣ clampTick 5 10) := by
  rw [clampTick_five_ten]
  omega

/-- C6 (amended): for every tick and positive tickSpacing, clampTick returns a
tick within the spacing-aligned bounds (hence within [MIN_TICK, MAX_TICK]), and
the result is a multiple of tickSpacing whenever the input tick is — which is
the case for every tick-producing caller, since each aligns before clamping. -/
theorem clampTick_bounds_and_alignment (tick s : ℤ) (hs : 0 < s) :
    minAlignedTick s ≤ clampTick tick s ∧ clampTick tick s ≤ maxAlignedTick s ∧
    MIN_TICK ≤ clampTick tick s ∧ clampTick tick s ≤ MAX_TICK ∧
    (s ∣ tick → s ∣ clampTick tick s) :=
  ⟨minAligned_le_clampTick tick s, clampTick_le_maxAligned hs,
    min_tick_le_clampTick hs, clampTick_le_max_tick hs, fun h => clampTick_dvd h⟩

/-- Witness for the amended C6 at tick = 20, tickSpacing = 10. -/
theorem clampTick_bounds_and_alignment_witness :
    (0 : ℤ) < 10 ∧
      (minAlignedTick 10 ≤ clampTick 20 10 ∧ clampTick 20 10 ≤ maxAlignedTick 10 ∧
        MIN_TICK ≤ clampTick 20 10 ∧ clampTick 20 10 ≤ MAX_TICK ∧
        ((10 : ℤ) ∣ 20 → (10 : ℤ) ∣ clampTick 20 10)) :=
  ⟨by norm_num, clampTick_bounds_and_alignment 20 10 (by norm_num)⟩

/-! ## Claim theorems: strategy decision and range computation -/

/-- C2: for every currentPrice > 0 and positive tickSpacing, computeNewTickRange
composes priceToTick at currentPrice·(1 − bandPct/100) with floor rounding and
at currentPrice·(1 + bandPct/100) with ceil rounding; given those aligned
bounds it fails with the invalid-range condition exactly when the aligned lower
bound is not strictly less than the aligned upper bound, and every successful
result satisfies tickLower < tickUpper. -/
theorem computeNewTickRange_spec (currentPrice priceBandPct : ℝ) (s : ℤ)
    (hp : 0 < currentPrice) (hs : 0 < s) :
    (∀ tl tu : ℤ,
      priceToTick (currentPrice * (1 - priceBandPct / 100)) s Round.floor =
        Except.ok tl →
      priceToTick (currentPrice * (1 + priceBandPct / 100)) s Round.ceil =
        Except.ok tu →
      computeNewTickRange currentPrice priceBandPct s =
        (if tl < tu then Except.ok (tl, tu)
         else Except.error ("Invalid tick range: lower=" ++ toString tl ++
           " >= upper=" ++ toString tu))) ∧
    (∀ r : ℤ × ℤ,
      computeNewTickRange currentPrice priceBandPct s = Except.ok r →
      r.1 < r.2) := by
  constructor
  · intro tl tu h1 h2
    simp only [computeNewTickRange]
    rw [h1, h2]
    dsimp only
    by_cases h : tl < tu
    · rw [if_neg (not_le.mpr h), if_pos h]
    · rw [if_pos (not_lt.mp h), if_neg h]
  · intro r hr
    simp only [computeNewTickRange] at hr
    rcases hA : priceToTick (currentPrice * (1 - priceBandPct / 100)) s Round.floor
      with e | tl
    · rw [hA] at hr; exact absurd hr (by simp)
    · rw [hA] at hr
      rcases hB : priceToTick (currentPrice * (1 + priceBandPct / 100)) s Round.ceil
        with e | tu
      · rw [hB] at hr; exact absurd hr (by simp)
      · rw [hB] at hr
        dsimp only at hr
        by_cases h : tl ≥ tu
        · rw [if_pos h] at hr; exact absurd hr (by simp)
        · rw [if_neg h] at hr
          simp only [Except.ok.injEq] at hr
          rw [← hr]
          exact not_le.mp h

/-- Witness for C2 at currentPrice = 1, priceBandPct = 1.5, tickSpacing = 10. -/
theorem computeNewTickRange_spec_witness :
    (0 : ℝ) < 1 ∧ (0 : ℤ) < 10 ∧
      ((∀ tl tu : ℤ,
        priceToTick (1 * (1 - 1.5 / 100)) 10 Round.floor = Except.ok tl →
        priceToTick (1 * (1 + 1.5 / 100)) 10 Round.ceil = Except.ok tu →
        computeNewTickRange 1 1.5 10 =
          (if tl < tu then Except.ok (tl, tu)
           else Except.error ("Invalid tick range: lower=" ++ toString tl ++
             " >= upper=" ++ toString tu))) ∧
      (∀ r : ℤ × ℤ, computeNewTickRange 1 1.5 10 = Except.ok r → r.1 < r.2)) :=
  ⟨by norm_num, by norm_num,
    computeNewTickRange_spec 1 1.5 10 (by norm_num) (by norm_num)⟩

/-- C1: evaluateStrategy returns the out-of-range rebalance decision (new range
from computeNewTickRange) whenever the current tick is outside
[tickLower, tickUpper]; else the drift decision under the same range
computation when |drift| exceeds the threshold; else no rebalance with trigger
none and no new range. Out-of-range is checked first, so it takes priority. -/
theorem evaluateStrategy_spec (pool : PoolState) (position : PositionState)
    (config : BotConfig) :
    (isTickInRange pool.currentTick position.tickLower position.tickUpper = false →
      evaluateStrategy pool position config =
        (computeNewTickRange pool.currentPrice config.priceBandPct
            pool.tickSpacing).map
          (fun r =>
            { shouldRebalance := true
              trigger := RebalanceTrigger.price_out_of_range
              currentDriftPct :=
                driftPct pool.currentPrice position.tickLower position.tickUpper
              newTickLower := some r.1
              newTickUpper := some r.2
              details := detailsOutOfRange pool.currentTick position.tickLower
                position.tickUpper })) ∧
    (isTickInRange pool.currentTick position.tickLower position.tickUpper = true →
      |driftPct pool.currentPrice position.tickLower position.tickUpper| >
        config.driftTriggerPct →
      evaluateStrategy pool position config =
        (computeNewTickRange pool.currentPrice config.priceBandPct
            pool.tickSpacing).map
          (fun r =>
            { shouldRebalance := true
              trigger := RebalanceTrigger.drift_exceeded
              currentDriftPct :=
                driftPct pool.currentPrice position.tickLower position.tickUpper
              newTickLower := some r.1
              newTickUpper := some r.2
              details := detailsDriftExceeded })) ∧
    (isTickInRange pool.currentTick position.tickLower position.tickUpper = true →
      ¬ (|driftPct pool.currentPrice position.tickLower position.tickUpper| >
        config.driftTriggerPct) →
      evaluateStrategy pool position config = Except.ok
        { shouldRebalance := false
          trigger := RebalanceTrigger.none
          currentDriftPct :=
            driftPct pool.currentPrice position.tickLower position.tickUpper
          newTickLower := Option.none
          newTickUpper := Option.none
          details := detailsInRange }) := by
  refine ⟨?_, ?_, ?_⟩
  · intro h
    simp only [evaluateStrategy, h, Bool.not_false, if_true]
    cases computeNewTickRange pool.currentPrice config.priceBandPct pool.tickSpacing
    · rfl
    · rfl
  · intro h hd
    simp only [evaluateStrategy, h, Bool.not_true, if_false, Bool.false_eq_true,
      if_neg]
    rw [if_pos hd]
    cases computeNewTickRange pool.currentPrice config.priceBandPct pool.tickSpacing
    · rfl
    · rfl
  · intro h hd
    simp only [evaluateStrategy, h, Bool.not_true, if_false, Bool.false_eq_true,
      if_neg]
    rw [if_neg hd]

/-! ## Claim theorems: token amounts and swap sizing -/

/-- C4: for liquidity ≥ 0 and a range tickLower < tickUpper, computeTokenAmounts
is all token A (amountB = 0) at or below the lower price, all token B
(amountA = 0) at or above the upper price, takes the in-range formula strictly
inside, and both outputs are non-negative in every case. -/
theorem computeTokenAmounts_spec (liquidity : ℤ) (currentPrice : ℝ)
    (tickLower tickUpper : ℤ) (hL : 0 ≤ liquidity) (hrange : tickLower < tickUpper) :
    (currentPrice ≤ tickToPrice tickLower →
      (computeTokenAmounts liquidity currentPrice tickLower tickUpper).2 = 0) ∧
    (currentPrice ≥ tickToPrice tickUpper →
      (computeTokenAmounts liquidity currentPrice tickLower tickUpper).1 = 0) ∧
    (tickToPrice tickLower < currentPrice → currentPrice < tickToPrice tickUpper →
      computeTokenAmounts liquidity currentPrice tickLower tickUpper =
        ((liquidity : ℝ) *
            (1 / Real.sqrt currentPrice - 1 / Real.sqrt (tickToPrice tickUpper)),
         (liquidity : ℝ) *
            (Real.sqrt currentPrice - Real.sqrt (tickToPrice tickLower)))) ∧
    0 ≤ (computeTokenAmounts liquidity currentPrice tickLower tickUpper).1 ∧
    0 ≤ (computeTokenAmounts liquidity currentPrice tickLower tickUpper).2 := by
  have hL' : (0 : ℝ) ≤ (liquidity : ℝ) := by exact_mod_cast hL
  have hlp := tickToPrice_pos tickLower
  have hlu := tickToPrice_strictMono hrange
  have hsL : 0 < Real.sqrt (tickToPrice tickLower) := Real.sqrt_pos.mpr hlp
  have hsLU : Real.sqrt (tickToPrice tickLower) ≤ Real.sqrt (tickToPrice tickUpper) :=
    Real.sqrt_le_sqrt hlu.le
  refine ⟨?_, ?_, ?_, ?_, ?_⟩
  · intro h
    simp only [computeTokenAmounts, if_pos h]
  · intro h
    have hnot : ¬ (currentPrice ≤ tickToPrice tickLower) :=
      not_le.mpr (lt_of_lt_of_le hlu h)
    simp only [computeTokenAmounts, if_neg hnot, if_pos h]
  · intro h1 h2
    have hn1 : ¬ (currentPrice ≤ tickToPrice tickLower) := not_le.mpr h1
    have hn2 : ¬ (currentPrice ≥ tickToPrice tickUpper) := not_le.mpr h2
    simp only [computeTokenAmounts, if_neg hn1, if_neg hn2]
  · simp only [computeTokenAmounts]
    split_ifs with h1 h2
    · apply mul_nonneg hL'
      rw [sub_nonneg]
      exact one_div_le_one_div_of_le hsL hsLU
    · exact le_refl 0
    · have hcp : 0 < Real.sqrt currentPrice :=
        Real.sqrt_pos.mpr (lt_trans hlp (not_le.mp h1))
      apply mul_nonneg hL'
      rw [sub_nonneg]
      exact one_div_le_one_div_of_le hcp (Real.sqrt_le_sqrt (le_of_lt (not_le.mp h2)))
  · simp only [computeTokenAmounts]
    split_ifs with h1 h2
    · exact le_refl 0
    · apply mul_nonneg hL'
      rw [sub_nonneg]
      exact hsLU
    · apply mul_nonneg hL'
      rw [sub_nonneg]
      exact Real.sqrt_le_sqrt (le_of_lt (not_le.mp h1))

/-- Witness for C4 at liquidity = 1, currentPrice = 1, range = [-10, 10]. -/
theorem computeTokenAmounts_spec_witness :
    (0 : ℤ) ≤ 1 ∧ (-10 : ℤ) < 10 ∧
      ((1 ≤ tickToPrice (-10) → (computeTokenAmounts 1 1 (-10) 10).2 = 0) ∧
       ((1 : ℝ) ≥ tickToPrice 10 → (computeTokenAmounts 1 1 (-10) 10).1 = 0) ∧
       (tickToPrice (-10) < 1 → (1 : ℝ) < tickToPrice 10 →
         computeTokenAmounts 1 1 (-10) 10 =
           (((1 : ℤ) : ℝ) * (1 / Real.sqrt 1 - 1 / Real.sqrt (tickToPrice 10)),
            ((1 : ℤ) : ℝ) * (Real.sqrt 1 - Real.sqrt (tickToPrice (-10))))) ∧
       0 ≤ (computeTokenAmounts 1 1 (-10) 10).1 ∧
       0 ≤ (computeTokenAmounts 1 1 (-10) 10).2) :=
  ⟨by norm_num, by norm_num,
    computeTokenAmounts_spec 1 1 (-10) 10 (by norm_num) (by norm_num)⟩

/-- Branch-explicit form of computeSwapNeeded (definitional unfolding). -/
lemma computeSwapNeeded_eq (balanceA balanceB : ℤ) (r cp : ℝ) (sl : ℤ) :
    computeSwapNeeded balanceA balanceB r cp sl =
      if r ≤ 0 ∨ (balanceA : ℝ) + (balanceB : ℝ) = 0 then Option.none
      else if |swapX balanceA balanceB r cp| <
          0.05 * totalValueInA balanceA balanceB cp then Option.none
      else if 0 < swapX balanceA balanceB r cp then
        (if ⌊swapX balanceA balanceB r cp⌋ = 0 then Option.none
         else some (true, ⌊swapX balanceA balanceB r cp⌋))
      else
        (if ⌊|swapX balanceA balanceB r cp| * cp⌋ = 0 then Option.none
         else some (false, ⌊|swapX balanceA balanceB r cp| * cp⌋)) := rfl

/-- C3: for non-negative balances and currentPrice > 0, computeSwapNeeded
returns no swap exactly when the target ratio is non-positive, both balances
are zero, |x| is below 5% of the total value in token-A units, or the relevant
swap amount floors to zero; a returned swap sells A (swapAtoB = true) with
amount ⌊x⌋ when x > 0 and sells B with amount ⌊|x|·price⌋ when x < 0. -/
theorem computeSwapNeeded_spec (balanceA balanceB : ℤ)
    (targetRatioAtoB currentPrice : ℝ) (slippageBps : ℤ)
    (hA : 0 ≤ balanceA) (hB : 0 ≤ balanceB) (hp : 0 < currentPrice) :
    (computeSwapNeeded balanceA balanceB targetRatioAtoB currentPrice slippageBps =
        Option.none ↔
      targetRatioAtoB ≤ 0 ∨ (balanceA = 0 ∧ balanceB = 0) ∨
      |swapX balanceA balanceB targetRatioAtoB currentPrice| <
        0.05 * totalValueInA balanceA balanceB currentPrice ∨
      (if 0 < swapX balanceA balanceB targetRatioAtoB currentPrice
       then ⌊swapX balanceA balanceB targetRatioAtoB currentPrice⌋
       else ⌊|swapX balanceA balanceB targetRatioAtoB currentPrice| *
         currentPrice⌋) = 0) ∧
    (∀ (b : Bool) (amt : ℤ),
      computeSwapNeeded balanceA balanceB targetRatioAtoB currentPrice slippageBps =
        some (b, amt) →
      (0 < swapX balanceA balanceB targetRatioAtoB currentPrice → b = true ∧
        amt = ⌊swapX balanceA balanceB targetRatioAtoB currentPrice⌋) ∧
      (swapX balanceA balanceB targetRatioAtoB currentPrice < 0 → b = false ∧
        amt = ⌊|swapX balanceA balanceB targetRatioAtoB currentPrice| *
          currentPrice⌋) ∧
      swapX balanceA balanceB targetRatioAtoB currentPrice ≠ 0) := by
  have hA' : (0 : ℝ) ≤ (balanceA : ℝ) := by exact_mod_cast hA
  have hB' : (0 : ℝ) ≤ (balanceB : ℝ) := by exact_mod_cast hB
  have hsum : ((balanceA : ℝ) + (balanceB : ℝ) = 0) ↔ (balanceA = 0 ∧ balanceB = 0) := by
    rw [add_eq_zero_iff_of_nonneg hA' hB']
    constructor
    · rintro ⟨h1, h2⟩
      exact ⟨by exact_mod_cast h1, by exact_mod_cast h2⟩
    · rintro ⟨h1, h2⟩
      subst h1; subst h2; norm_num
  have htv : ¬ (balanceA = 0 ∧ balanceB = 0) →
      0 < totalValueInA balanceA balanceB currentPrice := by
    intro hne
    unfold totalValueInA
    by_cases hA0 : balanceA = 0
    · have hB0 : balanceB ≠ 0 := fun h => hne ⟨hA0, h⟩
      have hBpos : (0 : ℝ) < (balanceB : ℝ) := by
        rcases lt_or_eq_of_le hB' with h | h
        · exact h
        · exact absurd (by exact_mod_cast h.symm) hB0
      exact add_pos_of_nonneg_of_pos hA' (div_pos hBpos hp)
    · have hApos : (0 : ℝ) < (balanceA : ℝ) := by
        rcases lt_or_eq_of_le hA' with h | h
        · exact h
        · exact absurd (by exact_mod_cast h.symm) hA0
      exact add_pos_of_pos_of_nonneg hApos (div_nonneg hB' hp.le)
  constructor
  · by_cases h1 : targetRatioAtoB ≤ 0 ∨ (balanceA : ℝ) + (balanceB : ℝ) = 0
    · rw [computeSwapNeeded_eq, if_pos h1]
      simp only [true_iff]
      rcases h1 with h1 | h1
      · exact Or.inl h1
      · exact Or.inr (Or.inl (hsum.mp h1))
    · rw [computeSwapNeeded_eq, if_neg h1]
      by_cases h2 : |swapX balanceA balanceB targetRatioAtoB currentPrice| <
          0.05 * totalValueInA balanceA balanceB currentPrice
      · rw [if_pos h2]
        simp only [true_iff]
        exact Or.inr (Or.inr (Or.inl h2))
      · rw [if_neg h2]
        by_cases h3 : 0 < swapX balanceA balanceB targetRatioAtoB currentPrice
        · rw [if_pos h3, if_pos h3]
          by_cases h4 : ⌊swapX balanceA balanceB targetRatioAtoB currentPrice⌋ = 0
          · rw [if_pos h4]
            simp only [true_iff]
            exact Or.inr (Or.inr (Or.inr h4))
          · rw [if_neg h4]
            simp only [reduceCtorEq, false_iff]
            rintro (h | h | h | h)
            · exact h1 (Or.inl h)
            · exact h1 (Or.inr (hsum.mpr h))
            · exact h2 h
            · exact h4 h
        · rw [if_neg h3, if_neg h3]
          by_cases h4 : ⌊|swapX balanceA balanceB targetRatioAtoB currentPrice| *
              currentPrice⌋ = 0
          · rw [if_pos h4]
            simp only [true_iff]
            exact Or.inr (Or.inr (Or.inr h4))
          · rw [if_neg h4]
            simp only [reduceCtorEq, false_iff]
            rintro (h | h | h | h)
            · exact h1 (Or.inl h)
            · exact h1 (Or.inr (hsum.mpr h))
            · exact h2 h
            · exact h4 h
  · intro b amt h
    rw [computeSwapNeeded_eq] at h
    split_ifs at h with h1 h2 h3 h4 h4
    · refine ⟨fun hx => ?_, fun hx => ?_, ?_⟩
      · simp only [Option.some.injEq, Prod.mk.injEq] at h
        exact ⟨h.1.symm, h.2.symm⟩
      · exact absurd hx (not_lt.mpr h3.le)
      · exact ne_of_gt h3
    · have hne : ¬ (balanceA = 0 ∧ balanceB = 0) := by
        intro hz
        exact h1 (Or.inr (hsum.mpr hz))
      have htv' := htv hne
      have hxabs : 0 < |swapX balanceA balanceB targetRatioAtoB currentPrice| :=
        lt_of_lt_of_le (by positivity) (not_lt.mp h2)
      have hxne : swapX balanceA balanceB targetRatioAtoB currentPrice ≠ 0 :=
        abs_pos.mp hxabs
      refine ⟨fun hx => absurd hx h3, fun hx => ?_, hxne⟩
      · simp only [Option.some.injEq, Prod.mk.injEq] at h
        exact ⟨h.1.symm, h.2.symm⟩

/-- Witness for C3 at zero balances, target ratio 1, price 1. -/
theorem computeSwapNeeded_spec_witness :
    (0 : ℤ) ≤ 0 ∧ (0 : ℝ) < 1 ∧
      ((computeSwapNeeded 0 0 1 1 0 = Option.none ↔
        (1 : ℝ) ≤ 0 ∨ ((0 : ℤ) = 0 ∧ (0 : ℤ) = 0) ∨
        |swapX 0 0 1 1| < 0.05 * totalValueInA 0 0 1 ∨
        (if 0 < swapX 0 0 1 1 then ⌊swapX 0 0 1 1⌋
         else ⌊|swapX 0 0 1 1| * 1⌋) = 0) ∧
      (∀ (b : Bool) (amt : ℤ),
        computeSwapNeeded 0 0 1 1 0 = some (b, amt) →
        (0 < swapX 0 0 1 1 → b = true ∧ amt = ⌊swapX 0 0 1 1⌋) ∧
        (swapX 0 0 1 1 < 0 → b = false ∧ amt = ⌊|swapX 0 0 1 1| * 1⌋) ∧
        swapX 0 0 1 1 ≠ 0)) :=
  ⟨le_refl 0, by norm_num,
    computeSwapNeeded_spec 0 0 1 1 0 (le_refl 0) (le_refl 0) (by norm_num)⟩

/-! ## Claim theorems: state store and lock -/

/-- C7: updateStateAfterRebalance increments totalRebalances by exactly one
(so the counter never decreases under the state-store update), replaces the
four position fields and the digest with its arguments, stamps the rebalance
time, and on a default first-run state the counter goes from 0 to 1. -/
theorem updateStateAfterRebalance_spec (state : BotState) (positionId : String)
    (tickLower tickUpper liquidity : ℤ) (txDigest : String) (now : ℤ) :
    (updateStateAfterRebalance state positionId tickLower tickUpper liquidity
        txDigest now).totalRebalances = state.totalRebalances + 1 ∧
    state.totalRebalances ≤
      (updateStateAfterRebalance state positionId tickLower tickUpper liquidity
        txDigest now).totalRebalances ∧
    (updateStateAfterRebalance state positionId tickLower tickUpper liquidity
        txDigest now).lastPositionId = some positionId ∧
    (updateStateAfterRebalance state positionId tickLower tickUpper liquidity
        txDigest now).lastTickLower = some tickLower ∧
    (updateStateAfterRebalance state positionId tickLower tickUpper liquidity
        txDigest now).lastTickUpper = some tickUpper ∧
    (updateStateAfterRebalance state positionId tickLower tickUpper liquidity
        txDigest now).lastLiquidity = some (toString liquidity) ∧
    (updateStateAfterRebalance state positionId tickLower tickUpper liquidity
        txDigest now).lastTxDigest = some txDigest ∧
    (updateStateAfterRebalance state positionId tickLower tickUpper liquidity
        txDigest now).lastRebalanceTime = some now ∧
    DEFAULT_STATE.totalRebalances = 0 ∧
    (updateStateAfterRebalance DEFAULT_STATE positionId tickLower tickUpper
        liquidity txDigest now).totalRebalances = 1 :=
  ⟨rfl, Nat.le_succ _, rfl, rfl, rfl, rfl, rfl, rfl, rfl, rfl⟩

/-- C9: acquiring the lock fails with the concurrent-instance condition and
leaves the existing lock in place when the stored owner is another, live
process; deletes the stale file and proceeds when the owner is dead; and every
successful acquisition ends with the current process id stored at the path. -/
theorem acquireLock_spec (content : Option ℤ) (alive : ℤ → Bool) (selfPid : ℤ) :
    (∀ pid : ℤ, content = some pid → pid ≠ selfPid → alive pid = true →
      acquireLock content alive selfPid =
        (Except.error ("Another rebalance process is running (PID " ++
          toString pid ++ ")"), some pid)) ∧
    (∀ pid : ℤ, content = some pid → pid ≠ selfPid → alive pid = false →
      acquireLock content alive selfPid = (Except.ok (), some selfPid)) ∧
    (∀ (r : Unit) (fs : Option ℤ),
      acquireLock content alive selfPid = (Except.ok r, fs) →
      fs = some selfPid) := by
  refine ⟨?_, ?_, ?_⟩
  · rintro pid rfl hne halive
    simp only [acquireLock, if_pos hne, if_pos halive]
  · rintro pid rfl hne hdead
    have : ¬ (alive pid = true) := by simp [hdead]
    simp only [acquireLock, if_pos hne, if_neg this]
  · intro r fs h
    cases content with
    | none =>
      simp only [acquireLock, Prod.mk.injEq] at h
      exact h.2.symm
    | some pid =>
      simp only [acquireLock] at h
      split_ifs at h with h1 h2
      · simp only [Prod.mk.injEq, reduceCtorEq, false_and] at h
      · simp only [Prod.mk.injEq] at h
        exact h.2.symm
      · simp only [Prod.mk.injEq] at h
        exact h.2.symm

/-! ## Helper lemmas: the retry loop -/

lemma range_map_backoff_step (attempt i : ℕ) (sleeps : List ℕ) :
    (sleeps ++ [backoffMs attempt]) ++
        (List.range i).map (fun j => backoffMs (attempt + 1 + j)) =
      sleeps ++ (List.range (i + 1)).map (fun j => backoffMs (attempt + j)) := by
  rw [List.range_succ_eq_map]
  simp only [List.map_cons, Nat.add_zero, List.map_map, List.append_assoc,
    List.singleton_append]
  congr 2
  apply List.map_congr_left
  intro j _
  simp only [Function.comp_apply]
  congr 1
  omega

lemma execGo_first_success (outcomes : ℕ → AttemptOutcome) :
    ∀ (i r attempt : ℕ) (lastErr : Option String) (sleeps : List ℕ) (d : String),
      i < r →
      (∀ j, j < i → isFailedAttempt (outcomes (attempt + j)) = true) →
      attemptToExcept (outcomes (attempt + i)) = Except.ok d →
      execGo outcomes r attempt lastErr sleeps =
        (Except.ok d,
         sleeps ++ (List.range i).map (fun j => backoffMs (attempt + j))) := by
  intro i
  induction i with
  | zero =>
    intro r attempt lastErr sleeps d hir hfail hok
    match r, hir with
    | r + 1, _ =>
      rw [Nat.add_zero] at hok
      unfold execGo
      rw [hok]
      simp
  | succ i ih =>
    intro r attempt lastErr sleeps d hir hfail hok
    match r, hir with
    | r + 1, hir =>
      rcases he : attemptToExcept (outcomes attempt) with e | dd
      · unfold execGo
        rw [he]
        dsimp only
        have hx := ih r (attempt + 1) (some e) (sleeps ++ [backoffMs attempt]) d
          (Nat.lt_of_succ_lt_succ hir)
          (fun j hj => by
            have := hfail (j + 1) (Nat.succ_lt_succ hj)
            simpa [Nat.add_assoc, Nat.add_comm 1 j] using this)
          (by
            have : attempt + 1 + i = attempt + (i + 1) := by omega
            rw [this]
            exact hok)
        rw [hx, range_map_backoff_step]
      · exfalso
        have := hfail 0 (Nat.succ_pos i)
        rw [Nat.add_zero] at this
        simp [isFailedAttempt, he] at this

lemma execGo_all_fail (outcomes : ℕ → AttemptOutcome) :
    ∀ (r attempt : ℕ) (lastErr : Option String) (sleeps : List ℕ),
      0 < r →
      (∀ j, j < r → isFailedAttempt (outcomes (attempt + j)) = true) →
      execGo outcomes r attempt lastErr sleeps =
        (Except.error (errOf (outcomes (attempt + (r - 1)))),
         sleeps ++ (List.range r).map (fun j => backoffMs (attempt + j))) := by
  intro r
  induction r with
  | zero =>
    intro attempt lastErr sleeps h
    exact absurd h (lt_irrefl 0)
  | succ r ih =>
    intro attempt lastErr sleeps _ hfail
    rcases he : attemptToExcept (outcomes attempt) with e | d
    · unfold execGo
      rw [he]
      dsimp only
      rcases Nat.eq_zero_or_pos r with hr | hr
      · subst hr
        unfold execGo
        have h0 : errOf (outcomes (attempt + (0 + 1 - 1))) = some e := by
          have hidx : attempt + (0 + 1 - 1) = attempt := by omega
          rw [hidx]
          simp only [errOf, he]
        rw [h0]
        have h1 : (sleeps ++ [backoffMs attempt]) ++
            (List.range 0).map (fun j => backoffMs (attempt + 1 + j)) =
            sleeps ++ (List.range (0 + 1)).map (fun j => backoffMs (attempt + j)) :=
          range_map_backoff_step attempt 0 sleeps
        simpa using h1
      · have hx := ih (attempt + 1) (some e) (sleeps ++ [backoffMs attempt]) hr
          (fun j hj => by
            have := hfail (j + 1) (Nat.succ_lt_succ hj)
            simpa [Nat.add_assoc, Nat.add_comm 1 j] using this)
        rw [hx, range_map_backoff_step]
        have h1 : attempt + 1 + (r - 1) = attempt + (r + 1 - 1) := by omega
        rw [h1]
    · exfalso
      have := hfail 0 (Nat.succ_pos r)
      rw [Nat.add_zero] at this
      simp [isFailedAttempt, he] at this

/-! ## Claim theorems: transaction execution -/

/-- C8: in live mode with the confirmation flag set, executeTransaction makes at
most maxRetries + 1 attempts, sleeping backoffMs(attempt) after each failure; a
non-success execution result counts as a failure and is retried; the digest of
the first successful attempt is returned, and when every attempt fails the last
error is raised to the caller. -/
theorem executeTransaction_retry_spec (config : BotConfig)
    (outcomes : ℕ → AttemptOutcome)
    (hdry : config.dryRun = false) (hconf : config.confirm = true) :
    (∀ (i : ℕ) (d : String), i ≤ config.maxRetries →
      (∀ j, j < i → isFailedAttempt (outcomes j) = true) →
      attemptToExcept (outcomes i) = Except.ok d →
      executeTransaction config outcomes =
        (Except.ok d, (List.range i).map backoffMs)) ∧
    ((∀ j, j ≤ config.maxRetries → isFailedAttempt (outcomes j) = true) →
      executeTransaction config outcomes =
        (Except.error (errOf (outcomes config.maxRetries)),
         (List.range (config.maxRetries + 1)).map backoffMs)) ∧
    (∀ (d e : String),
      attemptToExcept (AttemptOutcome.failure d e) =
        Except.error ("Transaction failed: " ++ e)) := by
  have hexec : executeTransaction config outcomes =
      execGo outcomes (config.maxRetries + 1) 0 Option.none [] := by
    simp [executeTransaction, hdry, hconf]
  refine ⟨?_, ?_, fun d e => rfl⟩
  · intro i d hi hfail hok
    rw [hexec]
    have hx := execGo_first_success outcomes i (config.maxRetries + 1) 0
      Option.none [] d (Nat.lt_succ_of_le hi)
      (fun j hj => by simpa using hfail j hj)
      (by simpa using hok)
    simpa using hx
  · intro hfail
    rw [hexec]
    have hx := execGo_all_fail outcomes (config.maxRetries + 1) 0 Option.none []
      (Nat.succ_pos _)
      (fun j hj => by simpa using hfail j (Nat.lt_succ_iff.mp hj))
    simpa using hx

/-- Witness for C8: maxRetries = 2, first attempt throws, second succeeds. -/
theorem executeTransaction_retry_spec_witness :
    ({ rebalanceMode := ("price_band"), priceBandPct := 1.5, driftTriggerPct := 0.5,
       slippageBps := 50, gasBudget := 10, maxRetries := 2, dryRun := false,
       confirm := true : BotConfig }.dryRun = false) ∧
    ({ rebalanceMode := ("price_band"), priceBandPct := 1.5, driftTriggerPct := 0.5,
       slippageBps := 50, gasBudget := 10, maxRetries := 2, dryRun := false,
       confirm := true : BotConfig }.confirm = true) ∧
    ((∀ (i : ℕ) (d : String), i ≤ 2 →
      (∀ j, j < i → isFailedAttempt
        ((fun n => if n = 0 then AttemptOutcome.throws ("boom")
          else AttemptOutcome.success ("digest1")) j) = true) →
      attemptToExcept ((fun n => if n = 0 then AttemptOutcome.throws ("boom")
          else AttemptOutcome.success ("digest1")) i) = Except.ok d →
      executeTransaction
        { rebalanceMode := ("price_band"), priceBandPct := 1.5,
          driftTriggerPct := 0.5, slippageBps := 50, gasBudget := 10,
          maxRetries := 2, dryRun := false, confirm := true }
        (fun n => if n = 0 then AttemptOutcome.throws ("boom")
          else AttemptOutcome.success ("digest1")) =
        (Except.ok d, (List.range i).map backoffMs)) ∧
    ((∀ j, j ≤ 2 → isFailedAttempt
        ((fun n => if n = 0 then AttemptOutcome.throws ("boom")
          else AttemptOutcome.success ("digest1")) j) = true) →
      executeTransaction
        { rebalanceMode := ("price_band"), priceBandPct := 1.5,
          driftTriggerPct := 0.5, slippageBps := 50, gasBudget := 10,
          maxRetries := 2, dryRun := false, confirm := true }
        (fun n => if n = 0 then AttemptOutcome.throws ("boom")
          else AttemptOutcome.success ("digest1")) =
        (Except.error (errOf ((fun n => if n = 0 then AttemptOutcome.throws ("boom")
          else AttemptOutcome.success ("digest1")) 2)),
         (List.range (2 + 1)).map backoffMs)) ∧
    (∀ (d e : String),
      attemptToExcept (AttemptOutcome.failure d e) =
        Except.error ("Transaction failed: " ++ e))) :=
  ⟨rfl, rfl,
    executeTransaction_retry_spec
      { rebalanceMode := ("price_band"), priceBandPct := 1.5,
        driftTriggerPct := 0.5, slippageBps := 50, gasBudget := 10,
        maxRetries := 2, dryRun := false, confirm := true }
      (fun n => if n = 0 then AttemptOutcome.throws ("boom")
        else AttemptOutcome.success ("digest1")) rfl rfl⟩

/-- C10: in live mode with the confirmation flag unset, executeTransaction
broadcasts nothing (its result is the same for every outcome sequence, with no
backoff sleeps) and returns the sentinel digest "aborted-no-confirm" as a
normal result; consequently a rebalance sequence that hits the gate does not
stop there — every later step still runs, through to add-liquidity. -/
theorem executeTransaction_no_confirm_spec (config : BotConfig) (env : ChainEnv)
    (positionId : String) (tickLower tickUpper newTickLower newTickUpper : ℤ)
    (liquidity : ℤ) (hdry : config.dryRun = false) (hconf : config.confirm = false) :
    (∀ outcomes : ℕ → AttemptOutcome,
      executeTransaction config outcomes =
        (Except.ok ("aborted-no-confirm"), [])) ∧
    (∃ steps : List RebalanceStep,
      runRebalance config env positionId tickLower tickUpper newTickLower
          newTickUpper liquidity = Except.ok (("aborted-no-confirm"), steps) ∧
      steps.getLast? = some RebalanceStep.addLiquidity ∧
      RebalanceStep.collectFees ∈ steps ∧
      RebalanceStep.removeLiquidity ∈ steps) := by
  have habort : ∀ outcomes : ℕ → AttemptOutcome,
      executeTransaction config outcomes =
        (Except.ok ("aborted-no-confirm"), []) := by
    intro outcomes
    simp [executeTransaction, hdry, hconf]
  refine ⟨habort, ?_⟩
  unfold runRebalance
  rw [habort (env.txOutcomes 0), habort (env.txOutcomes 1)]
  dsimp only
  rcases hsw : computeSwapNeeded env.midBalanceA env.midBalanceB
      (if (computeTokenAmounts liquidity env.pool.currentPrice newTickLower
            newTickUpper).2 > 0
       then (computeTokenAmounts liquidity env.pool.currentPrice newTickLower
            newTickUpper).1 /
          (computeTokenAmounts liquidity env.pool.currentPrice newTickLower
            newTickUpper).2
       else 1)
      env.pool.currentPrice config.slippageBps with _ | swp
  · rw [habort (env.txOutcomes 2)]
    dsimp only
    refine ⟨[RebalanceStep.collectFees, RebalanceStep.removeLiquidity,
      RebalanceStep.addLiquidity], rfl, rfl, ?_, ?_⟩
    · simp
    · simp
  · rw [habort (env.txOutcomes 2), habort (env.txOutcomes 3)]
    dsimp only
    refine ⟨[RebalanceStep.collectFees, RebalanceStep.removeLiquidity,
      RebalanceStep.swap, RebalanceStep.addLiquidity], rfl, rfl, ?_, ?_⟩
    · simp
    · simp

/-- A concrete live-mode, unconfirmed configuration (witness input). -/
def noConfirmConfig : BotConfig :=
  { rebalanceMode := ("price_band"), priceBandPct := 1.5, driftTriggerPct := 0.5,
    slippageBps := 50, gasBudget := 10, maxRetries := 1, dryRun := false,
    confirm := false }

/-- A concrete chain environment (witness input). -/
def throwingChainEnv : ChainEnv :=
  { pool := { currentTick := 0, currentPrice := 1, tickSpacing := 10, sqrtPrice := 0 }
    midBalanceA := 0
    midBalanceB := 0
    finalBalanceA := 0
    finalBalanceB := 0
    txOutcomes := fun _ _ => AttemptOutcome.throws ("x") }

/-- Witness for C10: a live, unconfirmed config and a trivial chain environment. -/
theorem executeTransaction_no_confirm_spec_witness :
    (noConfirmConfig.dryRun = false) ∧ (noConfirmConfig.confirm = false) ∧
    ((∀ outcomes : ℕ → AttemptOutcome,
      executeTransaction noConfirmConfig outcomes =
        (Except.ok ("aborted-no-confirm"), [])) ∧
    (∃ steps : List RebalanceStep,
      runRebalance noConfirmConfig throwingChainEnv ("pos-1") (-100) 100
          (-200) 200 5 =
        Except.ok (("aborted-no-confirm"), steps) ∧
      steps.getLast? = some RebalanceStep.addLiquidity ∧
      RebalanceStep.collectFees ∈ steps ∧
      RebalanceStep.removeLiquidity ∈ steps)) :=
  ⟨rfl, rfl,
    executeTransaction_no_confirm_spec noConfirmConfig throwingChainEnv
      ("pos-1") (-100) 100 (-200) 200 5 rfl rfl⟩
